import Mathlib

/-!
Shallow embedding of the knowledge-graph manager from `src/index.ts`
(class `KnowledgeGraphManager`).

The storage engine is modelled as a property graph held in `GState`:
node tables `Entity`, `Observation` (with a SERIAL id), `Tag`, and edge
tables `HAS_OBSERVATION`, `RELATED_TO`, `ENTITY_TAGGED_WITH`,
`OBSERVATION_TAGGED_WITH`.  Every `conn.query` / `conn.execute` call of
the source becomes one `engine` step; the step either applies the pure
row semantics of its Cypher text to the state or raises a storage fault,
as dictated by a fault oracle (`Nat → Bool`, indexed by the running count
of engine calls).  Operations are functions in the monad `GM`, which
threads the oracle, the graph state and the call counter and propagates
errors exactly where the TypeScript `try`/`catch`/`throw` structure does.
String interpolation with quote escaping in the source builds the same
query the prepared-statement paths do, so both are modelled as passing
the string value directly.
-/

deriving instance DecidableEq for Except

namespace KGMem

/-- A row of the `Entity` node table: `name` (primary key) and `entityType`. -/
structure EntityNode where
  name : String
  entityType : String
deriving DecidableEq

/-- A row of the `Observation` node table: SERIAL `id` (primary key) and `content`. -/
structure ObservationNode where
  id : Nat
  content : String
deriving DecidableEq

/-- A row of the `Tag` node table: `name` (primary key), `category`, `description`. -/
structure TagNode where
  name : String
  category : String
  description : String
deriving DecidableEq

/-- A `HAS_OBSERVATION` edge from an entity (by name) to an observation (by id). -/
structure HasObsEdge where
  owner : String
  obsId : Nat
deriving DecidableEq

/-- An `ENTITY_TAGGED_WITH` edge from an entity (by name) to a tag (by name). -/
structure EntTagEdge where
  entity : String
  tag : String
deriving DecidableEq

/-- An `OBSERVATION_TAGGED_WITH` edge from an observation (by id) to a tag (by name). -/
structure ObsTagEdge where
  obsId : Nat
  tag : String
deriving DecidableEq

/-- The `Relation` value shape of the source (`{from, to, relationType}`);
also used as the payload of a `RELATED_TO` edge. -/
structure Relation where
  fromName : String
  toName : String
  relationType : String
deriving DecidableEq

/-- The `Entity` value shape of the source.  The optional `tags` field is
coalesced with `[]` at every use site in the source (`entity.tags || []`),
so it is modelled as a plain list. -/
structure Entity where
  name : String
  entityType : String
  observations : List String
  tags : List String
deriving DecidableEq

/-- The `Tag` value shape of the source (`category`/`description` optional). -/
structure Tag where
  name : String
  category : Option String
  description : Option String
deriving DecidableEq

/-- The `KnowledgeGraph` result shape.  `tags` is optional in the source and
absent from `searchNodes` results; absence is modelled as `[]`. -/
structure KnowledgeGraph where
  entities : List Entity
  relations : List Relation
  tags : List Tag
deriving DecidableEq

/-- An entry of the `addObservations` input (`{entityName, contents}`). -/
structure ObsInput where
  entityName : String
  contents : List String
deriving DecidableEq

/-- An entry of the `addObservations` result (`{entityName, addedObservations}`). -/
structure ObsAdded where
  entityName : String
  addedObservations : List String
deriving DecidableEq

/-- An entry of the `deleteObservations` input (`{entityName, observations}`). -/
structure ObsDeletion where
  entityName : String
  observations : List String
deriving DecidableEq

/-- The state of the storage engine: the five collections declared by the
schema, plus the next SERIAL id for `Observation`. -/
structure GState where
  entities : List EntityNode
  observations : List ObservationNode
  tags : List TagNode
  hasObservation : List HasObsEdge
  relatedTo : List Relation
  entityTaggedWith : List EntTagEdge
  observationTaggedWith : List ObsTagEdge
  nextObsId : Nat
deriving DecidableEq

/-- The empty graph. -/
def GState.empty : GState := ⟨[], [], [], [], [], [], [], 0⟩

/-- Errors surfaced by operations: the `Entity ... not found` errors thrown
by the source, and faults raised by the storage engine. -/
inductive GErr where
  | notFound (name : String)
  | storageFault
deriving DecidableEq

/-- The monad of the graph manager: a computation takes the fault oracle
(whether the i-th engine call faults), the graph state and the engine-call
counter, and produces a result or an error together with the new state and
counter. -/
def GM (α : Type) : Type :=
  (Nat → Bool) → GState → Nat → Except GErr α × GState × Nat

def GM.pure {α : Type} (a : α) : GM α := fun _ s k => (Except.ok a, s, k)

def GM.bind {α β : Type} (m : GM α) (f : α → GM β) : GM β := fun or s k =>
  match m or s k with
  | (Except.ok a, s1, k1) => f a or s1 k1
  | (Except.error e, s1, k1) => (Except.error e, s1, k1)

instance : Monad GM where
  pure := GM.pure
  bind := GM.bind

/-- `throw` of the source (`throw new Error(...)`). -/
def GM.throw {α : Type} (e : GErr) : GM α := fun _ s k => (Except.error e, s, k)

/-- `try { m } catch (e) { h e }` of the source. -/
def GM.tryCatch {α : Type} (m : GM α) (h : GErr → GM α) : GM α := fun or s k =>
  match m or s k with
  | (Except.ok a, s1, k1) => (Except.ok a, s1, k1)
  | (Except.error e, s1, k1) => h e or s1 k1

/-- One call into the storage engine (`conn.query` or a prepared
`conn.execute`).  If the oracle marks this call index it raises a storage
fault and leaves the state unchanged; otherwise it applies the pure row
semantics `q` of the query. -/
def engine {α : Type} (q : GState → α × GState) : GM α := fun or s k =>
  if or k then (Except.error GErr.storageFault, s, k + 1)
  else (Except.ok (q s).1, (q s).2, k + 1)

/-- The all-clear oracle: no engine call ever faults. -/
def noFault : Nat → Bool := fun _ => false

/-! ### Row semantics of the individual Cypher queries -/

/-- `LOWER(s) CONTAINS LOWER(pat)`-style containment: `pat` occurs as a
contiguous substring of `s`. -/
def strContains (s pat : String) : Bool := decide (List.IsInfix pat.toList s.toList)

/-- `LOWER(...)` of the engine and `toLowerCase()` of the source: lowercase
every character. -/
def strToLower (s : String) : String := ⟨s.data.map Char.toLower⟩

/-- The entity nodes matching `(e:Entity {name: n})`. -/
def entitiesNamed (s : GState) (n : String) : List EntityNode :=
  s.entities.filter (fun e => e.name == n)

/-- Whether an entity named `n` exists. -/
def entityExists (s : GState) (n : String) : Bool :=
  s.entities.any (fun e => e.name == n)

/-- The tag nodes matching `(t:Tag {name: n})`. -/
def tagsNamed (s : GState) (n : String) : List TagNode :=
  s.tags.filter (fun t => t.name == n)

/-- Whether a tag named `n` exists. -/
def tagExists (s : GState) (n : String) : Bool :=
  s.tags.any (fun t => t.name == n)

/-- The observation nodes matching `(o:Observation {content: c})`. -/
def obsWithContent (s : GState) (c : String) : List ObservationNode :=
  s.observations.filter (fun o => o.content == c)

/-- `MATCH (e:Entity {name: n}) RETURN e.name` — number of result rows. -/
def qCountEntity (n : String) (s : GState) : Nat × GState :=
  ((entitiesNamed s n).length, s)

/-- `CREATE (e:Entity {name: n, entityType: t})`. -/
def qCreateEntity (n t : String) (s : GState) : Unit × GState :=
  ((), { s with entities := s.entities ++ [⟨n, t⟩] })

/-- `CREATE (o:Observation {content: c})` — the engine assigns the next
SERIAL id. -/
def qCreateObservation (c : String) (s : GState) : Unit × GState :=
  ((), { s with observations := s.observations ++ [⟨s.nextObsId, c⟩],
                nextObsId := s.nextObsId + 1 })

/-- `MATCH (e:Entity {name: n}), (o:Observation {content: c})
CREATE (e)-[:HAS_OBSERVATION]->(o)` — one edge per matching pair, so every
observation node carrying content `c` is linked. -/
def qLinkAllObs (n c : String) (s : GState) : Unit × GState :=
  ((), { s with hasObservation := s.hasObservation ++
          ((entitiesNamed s n).flatMap (fun e =>
            (obsWithContent s c).map (fun o => ⟨e.name, o.id⟩))) })

/-- `MATCH (t:Tag {name: n}) RETURN t.name` — number of result rows. -/
def qCountTag (n : String) (s : GState) : Nat × GState :=
  ((tagsNamed s n).length, s)

/-- `CREATE (t:Tag {name: n, category: cat, description: desc})`. -/
def qCreateTag (n cat desc : String) (s : GState) : Unit × GState :=
  ((), { s with tags := s.tags ++ [⟨n, cat, desc⟩] })

/-- `MATCH (e:Entity {name: n}), (t:Tag {name: tn})
CREATE (e)-[:ENTITY_TAGGED_WITH]->(t)`. -/
def qLinkEntityTag (n tn : String) (s : GState) : Unit × GState :=
  ((), { s with entityTaggedWith := s.entityTaggedWith ++
          ((entitiesNamed s n).flatMap (fun e =>
            (tagsNamed s tn).map (fun t => ⟨e.name, t.name⟩))) })

/-- `MATCH (e1:Entity {name: f})-[r:RELATED_TO {relationType: ty}]->(e2:Entity {name: t})
RETURN r` — number of result rows; the pattern joins the edge with both
endpoint nodes. -/
def qCountRelation (r : Relation) (s : GState) : Nat × GState :=
  ((s.relatedTo.filter (fun x =>
      x.fromName == r.fromName && x.toName == r.toName &&
      x.relationType == r.relationType &&
      entityExists s r.fromName && entityExists s r.toName)).length, s)

/-- `MATCH (e1:Entity {name: f}), (e2:Entity {name: t})
CREATE (e1)-[:RELATED_TO {relationType: ty}]->(e2)` — one edge per matching
pair of endpoint nodes; creates nothing when an endpoint is missing. -/
def qCreateRelation (r : Relation) (s : GState) : Unit × GState :=
  ((), { s with relatedTo := s.relatedTo ++
          ((entitiesNamed s r.fromName).flatMap (fun e1 =>
            (entitiesNamed s r.toName).map (fun e2 =>
              ⟨e1.name, e2.name, r.relationType⟩))) })

/-- `MATCH (e:Entity {name: n})-[:HAS_OBSERVATION]->(o:Observation {content: c})
RETURN o` — number of result rows. -/
def qCountOwnedObs (n c : String) (s : GState) : Nat × GState :=
  ((s.hasObservation.filter (fun h =>
      h.owner == n && entityExists s n &&
      (obsWithContent s c).any (fun o => o.id == h.obsId))).length, s)

/-- `MATCH (e:Entity {name: n}), (o:Observation {content: c})
WHERE NOT (e)-[:HAS_OBSERVATION]->(o) CREATE (e)-[:HAS_OBSERVATION]->(o)` —
links `n` to every observation node with content `c` not already linked. -/
def qLinkObsWhereNot (n c : String) (s : GState) : Unit × GState :=
  ((), { s with hasObservation := s.hasObservation ++
          ((entitiesNamed s n).flatMap (fun e =>
            ((obsWithContent s c).filter (fun o =>
              !(s.hasObservation.any (fun h => h.owner == e.name && h.obsId == o.id)))).map
              (fun o => ⟨e.name, o.id⟩))) })

/-- `MATCH (e:Entity {name: n}) DETACH DELETE e` — removes the matching
entity nodes and every edge touching them. -/
def qDetachDeleteEntity (n : String) (s : GState) : Unit × GState :=
  ((), { s with
    entities := s.entities.filter (fun e => !(e.name == n)),
    relatedTo := s.relatedTo.filter (fun r => !(r.fromName == n) && !(r.toName == n)),
    hasObservation := s.hasObservation.filter (fun h => !(h.owner == n)),
    entityTaggedWith := s.entityTaggedWith.filter (fun x => !(x.entity == n)) })

/-- `MATCH (o:Observation) WHERE NOT (o)<-[:HAS_OBSERVATION]-() DELETE o` —
removes every observation node with no remaining owning edge. -/
def qSweepOrphanObs (s : GState) : Unit × GState :=
  ((), { s with observations := s.observations.filter (fun o =>
          s.hasObservation.any (fun h => h.obsId == o.id && entityExists s h.owner)) })

/-- `MATCH (e:Entity {name: n})-[:HAS_OBSERVATION]->(o:Observation {content: c})
DETACH DELETE o` — removes the matching observation nodes and their edges. -/
def qDetachDeleteOwnedObs (n c : String) (s : GState) : Unit × GState :=
  let isVictim : ObservationNode → Bool := fun o =>
    o.content == c && entityExists s n &&
    s.hasObservation.any (fun h => h.owner == n && h.obsId == o.id)
  let victimIds := (s.observations.filter isVictim).map (fun o => o.id)
  ((), { s with
    observations := s.observations.filter (fun o => !(isVictim o)),
    hasObservation := s.hasObservation.filter (fun h => !(victimIds.contains h.obsId)),
    observationTaggedWith :=
      s.observationTaggedWith.filter (fun x => !(victimIds.contains x.obsId)) })

/-- `MATCH (e1:Entity {name: f})-[r:RELATED_TO {relationType: ty}]->(e2:Entity {name: t})
DELETE r`. -/
def qDeleteRelation (r : Relation) (s : GState) : Unit × GState :=
  ((), { s with relatedTo := s.relatedTo.filter (fun x =>
          !(x.fromName == r.fromName && x.toName == r.toName &&
            x.relationType == r.relationType &&
            entityExists s r.fromName && entityExists s r.toName)) })

/-- `MATCH (e:Entity {name: n})-[:ENTITY_TAGGED_WITH]->(t:Tag {name: tn})
RETURN e` — number of result rows. -/
def qCountEntityTagLink (n tn : String) (s : GState) : Nat × GState :=
  ((s.entityTaggedWith.filter (fun x =>
      x.entity == n && x.tag == tn && entityExists s n && tagExists s tn)).length, s)

/-- `MATCH (e:Entity {name: n})-[:HAS_OBSERVATION]->(o:Observation {content: c})
-[:OBSERVATION_TAGGED_WITH]->(t:Tag {name: tn}) RETURN o` — number of rows. -/
def qCountObsTagPath (n c tn : String) (s : GState) : Nat × GState :=
  ((s.observations.filter (fun o =>
      o.content == c && entityExists s n && tagExists s tn &&
      s.hasObservation.any (fun h => h.owner == n && h.obsId == o.id) &&
      s.observationTaggedWith.any (fun x => x.obsId == o.id && x.tag == tn))).length, s)

/-- `MATCH (e:Entity {name: n})-[:HAS_OBSERVATION]->(o:Observation {content: c}),
(t:Tag {name: tn}) CREATE (o)-[:OBSERVATION_TAGGED_WITH]->(t)` — links every
observation owned by `n` with content `c` to the tag; creates nothing when
no observation matches. -/
def qLinkObsTag (n c tn : String) (s : GState) : Unit × GState :=
  ((), { s with observationTaggedWith := s.observationTaggedWith ++
          ((s.observations.filter (fun o =>
              o.content == c && entityExists s n &&
              s.hasObservation.any (fun h => h.owner == n && h.obsId == o.id))).flatMap
            (fun o => (tagsNamed s tn).map (fun t => ⟨o.id, t.name⟩))) })

/-- `MATCH (e:Entity {name: n})-[r:ENTITY_TAGGED_WITH]->(t:Tag {name: tn})
DELETE r RETURN t.name` — deletes the matching edges and returns the number
of deleted rows. -/
def qDeleteEntityTagLink (n tn : String) (s : GState) : Nat × GState :=
  let p : EntTagEdge → Bool := fun x =>
    x.entity == n && x.tag == tn && entityExists s n && tagExists s tn
  ((s.entityTaggedWith.filter p).length,
   { s with entityTaggedWith := s.entityTaggedWith.filter (fun x => !(p x)) })

/-- The `o.content` values joined through `(e {name: n})-[:HAS_OBSERVATION]->(o)`:
one per matching edge-and-node pair. -/
def entityObsContents (s : GState) (n : String) : List String :=
  s.hasObservation.flatMap (fun h =>
    if h.owner == n then
      (s.observations.filter (fun o => o.id == h.obsId)).map (fun o => o.content)
    else [])

/-- The `et.name` values joined through `(e {name: n})-[:ENTITY_TAGGED_WITH]->(et)`. -/
def entityTagNames (s : GState) (n : String) : List String :=
  s.entityTaggedWith.flatMap (fun x =>
    if x.entity == n then
      (s.tags.filter (fun t => t.name == x.tag)).map (fun t => t.name)
    else [])

/-- The entity rows of `readGraph`: every entity with
`COLLECT(DISTINCT o.content)` and `COLLECT(DISTINCT et.name)`. -/
def qReadEntities (s : GState) : List Entity × GState :=
  (s.entities.map (fun e =>
    ⟨e.name, e.entityType, (entityObsContents s e.name).dedup,
     (entityTagNames s e.name).dedup⟩), s)

/-- `MATCH (e1:Entity)-[r:RELATED_TO]->(e2:Entity) RETURN ...` — every edge
joined with its endpoint nodes. -/
def qReadRelations (s : GState) : List Relation × GState :=
  (s.relatedTo.filter (fun r => entityExists s r.fromName && entityExists s r.toName), s)

/-- Insert a tag node into a list sorted by name (ascending). -/
def insertByName (t : TagNode) : List TagNode → List TagNode
  | [] => [t]
  | u :: us => if t.name ≤ u.name then t :: u :: us else u :: insertByName t us

/-- `ORDER BY t.name` (ascending) over the tag table. -/
def sortTagsByName : List TagNode → List TagNode
  | [] => []
  | t :: ts => insertByName t (sortTagsByName ts)

/-- `MATCH (t:Tag) RETURN ... ORDER BY t.name`. -/
def qReadAllTags (s : GState) : List TagNode × GState :=
  (sortTagsByName s.tags, s)

/-- Decoding of a tag row in `getAllTags`: empty `category`/`description`
become `undefined`. -/
def tagOut (t : TagNode) : Tag :=
  ⟨t.name, if t.category == "" then none else some t.category,
   if t.description == "" then none else some t.description⟩

/-- The surviving optional-match rows for entity `e` in the `searchNodes`
entity query: the `OPTIONAL MATCH (e)-[:HAS_OBSERVATION]->(o)` rows (or a
single null row when `e` owns no observation), filtered by
`WHERE LOWER(e.name) CONTAINS q OR LOWER(e.entityType) CONTAINS q OR
LOWER(o.content) CONTAINS q` (with `q` already lowercased; the `o.content`
disjunct is null — hence false — on the null row). -/
def searchRowsFor (s : GState) (lowq : String) (e : EntityNode) : List (Option String) :=
  let contents := entityObsContents s e.name
  let rows : List (Option String) :=
    if contents.isEmpty then [none] else contents.map some
  rows.filter (fun r =>
    strContains (strToLower e.name) lowq || strContains (strToLower e.entityType) lowq ||
      (match r with
       | some c => strContains (strToLower c) lowq
       | none => false))

/-- The entity part of `searchNodes`: the entities with at least one
surviving row, each with `COLLECT(DISTINCT o.content)` over its surviving
rows, then `RETURN DISTINCT`; finally the source drops null and empty
contents. -/
def qSearchEntities (q : String) (s : GState) : List Entity × GState :=
  let lowq := strToLower q
  let rows : List (String × String × List String) :=
    (s.entities.filter (fun e => !(searchRowsFor s lowq e).isEmpty)).map (fun e =>
      (e.name, e.entityType, ((searchRowsFor s lowq e).filterMap id).dedup))
  (rows.dedup.map (fun r =>
    ⟨r.1, r.2.1, (r.2.2).filter (fun c => !(c == "")), []⟩), s)

/-- `MATCH (e1:Entity)-[r:RELATED_TO]->(e2:Entity)
WHERE e1.name IN [...] AND e2.name IN [...] RETURN ...`. -/
def qRelationsAmong (names : List String) (s : GState) : List Relation × GState :=
  (s.relatedTo.filter (fun r =>
    entityExists s r.fromName && entityExists s r.toName &&
    names.contains r.fromName && names.contains r.toName), s)

/-! ### The operations of `KnowledgeGraphManager`

Each function mirrors the control flow of the TypeScript method of the same
name.  A `try { ... } catch (e) { console.error(...); throw e; }` block is
the identity on the error path (logging aside) and is therefore written as
the plain body; a catch block that only logs and falls through is written
as `GM.tryCatch` with a handler that continues. -/

/-- The observation-creation loop inside `createEntities`: for each content,
`CREATE` an observation node, then link the entity to every observation node
carrying that content. -/
def ceObsLoop (entityName : String) : List String → GM Unit
  | [] => GM.pure ()
  | c :: rest => do
      let _ ← engine (qCreateObservation c)
      let _ ← engine (qLinkAllObs entityName c)
      ceObsLoop entityName rest

/-- The tag loop inside `createEntities`: for each tag name, create the tag
if absent, then link the entity to it (no link-existence check). -/
def ceTagLoop (entityName : String) : List String → GM Unit
  | [] => GM.pure ()
  | tn :: rest => do
      let n ← engine (qCountTag tn)
      let _ ← if n == 0 then engine (qCreateTag tn "" "") else GM.pure ()
      let _ ← engine (qLinkEntityTag entityName tn)
      ceTagLoop entityName rest

/-- The per-entity body of `createEntities`: skip when the name already
exists, otherwise create the entity, its observations and its tag links, and
report the created entity. -/
def createEntityItem (e : Entity) : GM (Option Entity) := do
  let n ← engine (qCountEntity e.name)
  if n == 0 then
    let _ ← engine (qCreateEntity e.name e.entityType)
    ceObsLoop e.name e.observations
    if e.tags.length > 0 then ceTagLoop e.name e.tags else GM.pure ()
    GM.pure (some ⟨e.name, e.entityType, e.observations, e.tags⟩)
  else
    GM.pure none

/-- `createEntities`: process the input entities in order; the per-item
catch rethrows, so any error aborts the remaining items. -/
def createEntities : List Entity → GM (List Entity)
  | [] => GM.pure []
  | e :: rest => do
      let r ← createEntityItem e
      let more ← createEntities rest
      GM.pure (match r with
        | some v => v :: more
        | none => more)

/-- The per-relation body of `createRelations`: skip when the exact triple
already exists, otherwise run the pattern-matching create (which no-ops when
an endpoint is missing) and report the relation. -/
def createRelationItem (r : Relation) : GM (Option Relation) := do
  let n ← engine (qCountRelation r)
  if n == 0 then
    let _ ← engine (qCreateRelation r)
    GM.pure (some ⟨r.fromName, r.toName, r.relationType⟩)
  else
    GM.pure none

/-- `createRelations`: process the input relations in order; the per-item
catch rethrows, so any error aborts the remaining items. -/
def createRelations : List Relation → GM (List Relation)
  | [] => GM.pure []
  | r :: rest => do
      let a ← createRelationItem r
      let more ← createRelations rest
      GM.pure (match a with
        | some v => v :: more
        | none => more)

/-- The body of the inner `try` of `addObservations`: skip when an
observation with this content is already linked to the entity, otherwise
create an observation node and link the entity to every not-yet-linked node
carrying the content, reporting the content. -/
def aoContentStep (entityName c : String) : GM (Option String) := do
  let n ← engine (qCountOwnedObs entityName c)
  if n == 0 then
    let _ ← engine (qCreateObservation c)
    let _ ← engine (qLinkObsWhereNot entityName c)
    GM.pure (some c)
  else
    GM.pure none

/-- The per-content loop of `addObservations`.  The inner catch logs and
falls through, so a fault while handling one content skips it and continues
with the next. -/
def aoContentLoop (entityName : String) : List String → GM (List String)
  | [] => GM.pure []
  | c :: rest => do
      let added ← GM.tryCatch (aoContentStep entityName c) (fun _ => GM.pure none)
      let more ← aoContentLoop entityName rest
      GM.pure (match added with
        | some v => v :: more
        | none => more)

/-- `addObservations`: for each entry, throw `NotFound` when the entity does
not exist (the outer catch rethrows, aborting the remaining entries),
otherwise add the not-yet-present contents and report the added ones. -/
def addObservations : List ObsInput → GM (List ObsAdded)
  | [] => GM.pure []
  | ob :: rest => do
      let n ← engine (qCountEntity ob.entityName)
      if n == 0 then
        GM.throw (GErr.notFound ob.entityName)
      else
        let added ← aoContentLoop ob.entityName ob.contents
        let more ← addObservations rest
        GM.pure (⟨ob.entityName, added⟩ :: more)

/-- The body of the per-name `try` of `deleteEntities`: detach-delete the
entity, then sweep ownerless observations. -/
def deleteEntityStep (n : String) : GM Unit := do
  let _ ← engine (qDetachDeleteEntity n)
  let _ ← engine qSweepOrphanObs
  GM.pure ()

/-- `deleteEntities`: for each name, detach-delete the entity and then sweep
ownerless observations; the per-item catch logs and continues. -/
def deleteEntities : List String → GM Unit
  | [] => GM.pure ()
  | n :: rest => do
      GM.tryCatch (deleteEntityStep n) (fun _ => GM.pure ())
      deleteEntities rest

/-- The inner loop of `deleteObservations` over one entry's contents; the
catch logs and continues. -/
def doObsLoop (entityName : String) : List String → GM Unit
  | [] => GM.pure ()
  | c :: rest => do
      GM.tryCatch
        (do
          let _ ← engine (qDetachDeleteOwnedObs entityName c)
          GM.pure ())
        (fun _ => GM.pure ())
      doObsLoop entityName rest

/-- The body of the per-relation `try` of `deleteRelations`. -/
def deleteRelStep (r : Relation) : GM Unit := do
  let _ ← engine (qDeleteRelation r)
  GM.pure ()

/-- `deleteObservations`: exact-match detach-delete per (entity, content)
pair; never surfaces an error. -/
def deleteObservations : List ObsDeletion → GM Unit
  | [] => GM.pure ()
  | d :: rest => do
      doObsLoop d.entityName d.observations
      deleteObservations rest

/-- `deleteRelations`: exact-match delete of each triple; the per-item catch
logs and continues. -/
def deleteRelations : List Relation → GM Unit
  | [] => GM.pure ()
  | r :: rest => do
      GM.tryCatch (deleteRelStep r) (fun _ => GM.pure ())
      deleteRelations rest

/-- `getAllTags`: all tags ordered by name, empty category/description
decoded as absent. -/
def getAllTags : GM (List Tag) := do
  let ts ← engine qReadAllTags
  GM.pure (ts.map tagOut)

/-- `readGraph`: every entity with its observations and tags, every relation,
every tag. -/
def readGraph : GM KnowledgeGraph := do
  let ents ← engine qReadEntities
  let rels ← engine qReadRelations
  let tags ← getAllTags
  GM.pure ⟨ents, rels, tags⟩

/-- `searchNodes`: the entity query, then (when any entity matched) the
relations among the matched names. -/
def searchNodes (q : String) : GM KnowledgeGraph := do
  let ents ← engine (qSearchEntities q)
  let names := ents.map (fun e => e.name)
  if names.isEmpty then
    GM.pure ⟨ents, [], []⟩
  else
    let rels ← engine (qRelationsAmong names)
    GM.pure ⟨ents, rels, []⟩

/-- The body of the inner per-tag `try` of `tagEntity`: create the tag if
absent, then check the `ENTITY_TAGGED_WITH` link and create it when absent,
reporting only a new link. -/
def teTagStep (entityName tn : String) : GM (Option String) := do
  let tc ← engine (qCountTag tn)
  let _ ← if tc == 0 then engine (qCreateTag tn "" "") else GM.pure ()
  let rc ← engine (qCountEntityTagLink entityName tn)
  if rc == 0 then
    let _ ← engine (qLinkEntityTag entityName tn)
    GM.pure (some tn)
  else
    GM.pure none

/-- The per-tag loop of `tagEntity`; the inner catch logs and falls
through, so a fault while handling one tag skips it and continues. -/
def teTagLoop (entityName : String) : List String → GM (List String)
  | [] => GM.pure []
  | tn :: rest => do
      let added ← GM.tryCatch (teTagStep entityName tn) (fun _ => GM.pure none)
      let more ← teTagLoop entityName rest
      GM.pure (match added with
        | some v => v :: more
        | none => more)

/-- `tagEntity`: throw `NotFound` when the entity does not exist (the outer
catch rethrows), otherwise run the per-tag loop. -/
def tagEntity (entityName : String) (tagNames : List String) : GM (List String) := do
  let n ← engine (qCountEntity entityName)
  if n == 0 then
    GM.throw (GErr.notFound entityName)
  else
    teTagLoop entityName tagNames

/-- The body of the inner per-tag `try` of `tagObservation`: create the tag
if absent, then check the full entity-observation-tag path and, when absent,
run the pattern-matching create (which links nothing when no observation
matches) — and report the tag regardless. -/
def toTagStep (entityName content tn : String) : GM (Option String) := do
  let tc ← engine (qCountTag tn)
  let _ ← if tc == 0 then engine (qCreateTag tn "" "") else GM.pure ()
  let rc ← engine (qCountObsTagPath entityName content tn)
  if rc == 0 then
    let _ ← engine (qLinkObsTag entityName content tn)
    GM.pure (some tn)
  else
    GM.pure none

/-- The per-tag loop of `tagObservation`; the inner catch logs and falls
through. -/
def toTagLoop (entityName content : String) : List String → GM (List String)
  | [] => GM.pure []
  | tn :: rest => do
      let added ← GM.tryCatch (toTagStep entityName content tn) (fun _ => GM.pure none)
      let more ← toTagLoop entityName content rest
      GM.pure (match added with
        | some v => v :: more
        | none => more)

/-- `tagObservation`: the outer catch rethrows, so the operation is its
per-tag loop. -/
def tagObservation (entityName observationContent : String)
    (tagNames : List String) : GM (List String) :=
  toTagLoop entityName observationContent tagNames

/-- The body of the per-tag `try` of `removeTagsFromEntity`: delete the
link and report the tag when a link was deleted. -/
def rtTagStep (entityName tn : String) : GM (Option String) := do
  let n ← engine (qDeleteEntityTagLink entityName tn)
  if n > 0 then GM.pure (some tn) else GM.pure none

/-- The per-tag loop of `removeTagsFromEntity`; the catch logs and
continues. -/
def rtTagLoop (entityName : String) : List String → GM (List String)
  | [] => GM.pure []
  | tn :: rest => do
      let removed ← GM.tryCatch (rtTagStep entityName tn) (fun _ => GM.pure none)
      let more ← rtTagLoop entityName rest
      GM.pure (match removed with
        | some v => v :: more
        | none => more)

/-- `removeTagsFromEntity`: never surfaces an error. -/
def removeTagsFromEntity (entityName : String) (tagNames : List String) :
    GM (List String) :=
  rtTagLoop entityName tagNames

/-! ### Derived definitions and concrete fixtures -/

/-- The search criterion of the specification: the query is a
case-insensitive substring of the entity name, of the entity type, or of the
content of at least one observation owned by the entity. -/
def entityMatchesQuery (s : GState) (q : String) (e : EntityNode) : Bool :=
  strContains (strToLower e.name) (strToLower q) ||
  strContains (strToLower e.entityType) (strToLower q) ||
  (entityObsContents s e.name).any (fun c => strContains (strToLower c) (strToLower q))

/-- Observation node `o` is owned by `x` and (judging by its id) by nobody
else. -/
def exclusivelyOwnedBy (s : GState) (o : ObservationNode) (x : String) : Bool :=
  s.hasObservation.any (fun h => h.owner == x && h.obsId == o.id) &&
  s.hasObservation.all (fun h => !(h.obsId == o.id) || h.owner == x)

/-- The net state effect of one fault-free `deleteEntities` item: detach
delete, then the orphan sweep. -/
def deleteEntityEffect (n : String) (s : GState) : GState :=
  (qSweepOrphanObs (qDetachDeleteEntity n s).2).2

/-- The value `readGraph` returns on a fault-free run. -/
def readGraphPure (s : GState) : KnowledgeGraph :=
  ⟨(qReadEntities s).1, (qReadRelations s).1, (qReadAllTags s).1.map tagOut⟩

/-- A graph holding the single entity `A`. -/
def stateA : GState := ⟨[⟨"A", "person"⟩], [], [], [], [], [], [], 0⟩

/-- A graph holding the two entities `A` and `B`. -/
def stateAB : GState :=
  ⟨[⟨"A", "person"⟩, ⟨"B", "person"⟩], [], [], [], [], [], [], 0⟩

/-- `stateA` after the tag `vip` has been created. -/
def stateAvip : GState := { stateA with tags := [⟨"vip", "", ""⟩] }

/-- A relation from `A` to the nonexistent entity `B`. -/
def relAB : Relation := ⟨"A", "B", "knows"⟩

/-- A sample entity value. -/
def entitySample : Entity := ⟨"C", "person", ["likes tea"], ["vip"]⟩

/-- A graph for the cascading-delete scenario: `John` relates to
`Anthropic`, which exclusively owns observation 0. -/
def stateJW : GState :=
  ⟨[⟨"John", "person"⟩, ⟨"Anthropic", "company"⟩],
   [⟨0, "x"⟩], [], [⟨"Anthropic", 0⟩],
   [⟨"John", "Anthropic", "works_at"⟩], [], [], 1⟩

/-- An oracle under which exactly the first engine call faults. -/
def oracleAt0 : Nat → Bool := fun i => i == 0

/-- An oracle under which exactly the second engine call faults. -/
def oracleAt1 : Nat → Bool := fun i => i == 1

/-- The graph holding only the entity `A`: what `stateAB` becomes when only
the deletion of `B` succeeds. -/
def stateOnlyA : GState := ⟨[⟨"A", "person"⟩], [], [], [], [], [], [], 0⟩

/-- `stateA` with the entity `A` carrying the two tags `vip` and `extra`. -/
def stateATagged : GState :=
  { stateA with
    tags := [⟨"vip", "", ""⟩, ⟨"extra", "", ""⟩],
    entityTaggedWith := [⟨"A", "vip"⟩, ⟨"A", "extra"⟩] }

/-- `stateATagged` after only the `extra` link has been removed. -/
def stateATaggedAfter : GState :=
  { stateATagged with entityTaggedWith := [⟨"A", "vip"⟩] }

/-! ### Run lemmas -/

theorem bind_eq {α β : Type} (m : GM α) (f : α → GM β) : m >>= f = GM.bind m f := rfl

theorem pure_eq {α : Type} (a : α) : (pure a : GM α) = GM.pure a := rfl

theorem engine_noFault {α : Type} (q : GState → α × GState) (s : GState) (k : Nat) :
    engine q noFault s k = (Except.ok (q s).1, (q s).2, k + 1) := rfl

theorem bind_ok {α β : Type} {m : GM α} {f : α → GM β} {or : Nat → Bool}
    {s : GState} {k : Nat} {a : α} {s1 : GState} {k1 : Nat}
    (h : m or s k = (Except.ok a, s1, k1)) :
    (m >>= f) or s k = f a or s1 k1 := by
  simp [bind_eq, GM.bind, h]

theorem bind_error {α β : Type} {m : GM α} {f : α → GM β} {or : Nat → Bool}
    {s : GState} {k : Nat} {e : GErr} {s1 : GState} {k1 : Nat}
    (h : m or s k = (Except.error e, s1, k1)) :
    (m >>= f) or s k = (Except.error e, s1, k1) := by
  simp [bind_eq, GM.bind, h]

theorem tryCatch_ok {α : Type} {m : GM α} {hd : GErr → GM α} {or : Nat → Bool}
    {s : GState} {k : Nat} {a : α} {s1 : GState} {k1 : Nat}
    (h : m or s k = (Except.ok a, s1, k1)) :
    GM.tryCatch m hd or s k = (Except.ok a, s1, k1) := by
  simp [GM.tryCatch, h]

theorem tryCatch_error {α : Type} {m : GM α} {hd : GErr → GM α} {or : Nat → Bool}
    {s : GState} {k : Nat} {e : GErr} {s1 : GState} {k1 : Nat}
    (h : m or s k = (Except.error e, s1, k1)) :
    GM.tryCatch m hd or s k = hd e or s1 k1 := by
  simp [GM.tryCatch, h]

theorem entitiesNamed_eq_nil {s : GState} {n : String}
    (h : entityExists s n = false) : entitiesNamed s n = [] := by
  simp only [entityExists, List.any_eq_false] at h
  simp only [entitiesNamed, List.filter_eq_nil_iff]
  exact h

theorem entitiesNamed_length_ne_zero {s : GState} {n : String}
    (h : entityExists s n = true) : ((entitiesNamed s n).length == 0) = false := by
  simp only [entityExists, List.any_eq_true] at h
  obtain ⟨e, he, hn⟩ := h
  have hm : e ∈ entitiesNamed s n := List.mem_filter.mpr ⟨he, hn⟩
  cases hnil : entitiesNamed s n with
  | nil => rw [hnil] at hm; cases hm
  | cons a l => simp

theorem tryCatch_pure_ok {α : Type} {m : GM α} (x : α) (or : Nat → Bool)
    (s : GState) (k : Nat) :
    ∃ v s1 k1, GM.tryCatch m (fun _ => GM.pure x) or s k = (Except.ok v, s1, k1) := by
  rcases h : m or s k with ⟨res, s1, k1⟩
  cases res with
  | ok a => exact ⟨a, s1, k1, tryCatch_ok h⟩
  | error e => exact ⟨x, s1, k1, by rw [tryCatch_error h]; rfl⟩

theorem bind_no_error {α β : Type} {m : GM α} {f : α → GM β} {or : Nat → Bool}
    {s : GState} {k : Nat}
    (hm : ∃ a s1 k1, m or s k = (Except.ok a, s1, k1))
    (hf : ∀ a s1 k1, ∃ b s2 k2, f a or s1 k1 = (Except.ok b, s2, k2)) :
    ∃ b s2 k2, (m >>= f) or s k = (Except.ok b, s2, k2) := by
  obtain ⟨a, s1, k1, hm⟩ := hm
  obtain ⟨b, s2, k2, hf⟩ := hf a s1 k1
  exact ⟨b, s2, k2, by rw [bind_ok hm]; exact hf⟩

/-- C1: on a graph holding only the entity `A`, creating the relation
`A -knows-> B` creates no edge (endpoint `B` is missing, the state is
unchanged and `relatedTo` stays empty) and raises no error, yet the
returned list still contains the relation — so the returned list is not
the list of relations for which an edge was actually created. -/
theorem c1_createRelations_reports_uncreated_relation :
    entityExists stateA "B" = false ∧
    createRelations [relAB] noFault stateA 0 = (Except.ok [relAB], stateA, 2) ∧
    stateA.relatedTo = [] := by
  refine ⟨by decide, ?_, by decide⟩
  decide

/-- C2: on a graph holding only the entity `A` (which owns no observation),
`tagObservation("A", "x", ["vip"])` adds no tag link to any observation
(`observationTaggedWith` stays empty) and raises no error, yet the returned
`addedTags` list is `["vip"]`, not the empty list. -/
theorem c2_tagObservation_missing_observation_reports_tags :
    stateA.observations = [] ∧
    tagObservation "A" "x" ["vip"] noFault stateA 0 =
      (Except.ok ["vip"], stateAvip, 4) ∧
    stateAvip.observationTaggedWith = [] := by
  refine ⟨by decide, ?_, by decide⟩
  decide

/-- C4: when an `addObservations` entry names a nonexistent entity, the call
fails with `NotFound` for that entry before touching the graph: the state is
returned unchanged (no observation or link is created for the entry) and the
remaining entries are not processed. -/
theorem c4_addObservations_missing_entity (s : GState) (ob : ObsInput)
    (rest : List ObsInput) (k : Nat)
    (h : entityExists s ob.entityName = false) :
    addObservations (ob :: rest) noFault s k =
      (Except.error (GErr.notFound ob.entityName), s, k + 1) := by
  have hnil : entitiesNamed s ob.entityName = [] := entitiesNamed_eq_nil h
  simp only [addObservations, bind_eq, GM.bind, engine_noFault, qCountEntity, hnil,
    List.length_nil, GM.throw]
  rfl

/-- Witness for C4: the specification scenario
`addObservations([{entityName: Ghost, contents: [x]}])` on the empty graph. -/
theorem c4_addObservations_missing_entity_witness :
    entityExists GState.empty "Ghost" = false ∧
    addObservations [⟨"Ghost", ["x"]⟩] noFault GState.empty 0 =
      (Except.error (GErr.notFound "Ghost"), GState.empty, 1) :=
  ⟨by decide,
   c4_addObservations_missing_entity GState.empty ⟨"Ghost", ["x"]⟩ [] 0 (by decide)⟩

theorem ceObsLoop_noFault (n : String) (cs : List String) :
    ∀ (s : GState) (k : Nat),
    ∃ s1 k1, ceObsLoop n cs noFault s k = (Except.ok (), s1, k1) ∧
      s1.entities = s.entities := by
  induction cs with
  | nil => intro s k; exact ⟨s, k, rfl, rfl⟩
  | cons c rest ih =>
      intro s k
      obtain ⟨s1, k1, hrun, hent⟩ :=
        ih ((qLinkAllObs n c (qCreateObservation c s).2).2) (k + 1 + 1)
      refine ⟨s1, k1, ?_, ?_⟩
      · simp only [ceObsLoop, bind_eq, GM.bind, engine_noFault]
        exact hrun
      · rw [hent]; simp [qCreateObservation, qLinkAllObs]

theorem ceTagLoop_noFault (n : String) (tns : List String) :
    ∀ (s : GState) (k : Nat),
    ∃ s1 k1, ceTagLoop n tns noFault s k = (Except.ok (), s1, k1) ∧
      s1.entities = s.entities := by
  induction tns with
  | nil => intro s k; exact ⟨s, k, rfl, rfl⟩
  | cons tn rest ih =>
      intro s k
      by_cases h0 : tagsNamed s tn = []
      · obtain ⟨s1, k1, hrun, hent⟩ :=
          ih ((qLinkEntityTag n tn (qCreateTag tn "" "" s).2).2) (k + 1 + 1 + 1)
        refine ⟨s1, k1, ?_, ?_⟩
        · simp [ceTagLoop, bind_eq, GM.bind, engine_noFault, qCountTag, h0, GM.pure, hrun]
        · rw [hent]; simp [qCreateTag, qLinkEntityTag]
      · obtain ⟨s1, k1, hrun, hent⟩ :=
          ih ((qLinkEntityTag n tn s).2) (k + 1 + 1)
        refine ⟨s1, k1, ?_, ?_⟩
        · simp [ceTagLoop, bind_eq, GM.bind, engine_noFault, qCountTag, h0, GM.pure, hrun]
        · rw [hent]; simp [qLinkEntityTag]

theorem createEntityItem_fresh (e : Entity) (s : GState) (k : Nat)
    (h : entityExists s e.name = false) :
    ∃ s1 k1, createEntityItem e noFault s k = (Except.ok (some e), s1, k1) ∧
      entityExists s1 e.name = true := by
  have hnil : entitiesNamed s e.name = [] := entitiesNamed_eq_nil h
  obtain ⟨s2, k2, hobs, hent2⟩ :=
    ceObsLoop_noFault e.name e.observations (qCreateEntity e.name e.entityType s).2 (k + 1 + 1)
  have hentity2 : entityExists s2 e.name = true := by
    simp [entityExists, hent2, qCreateEntity]
  by_cases htag : (e.tags.length > 0)
  · obtain ⟨s3, k3, htags, hent3⟩ := ceTagLoop_noFault e.name e.tags s2 k2
    refine ⟨s3, k3, ?_, ?_⟩
    · simp [createEntityItem, bind_eq, GM.bind, engine_noFault, qCountEntity, hnil,
        hobs, htags, htag, GM.pure]
    · simp [entityExists, hent3, hent2, qCreateEntity]
  · refine ⟨s2, k2, ?_, hentity2⟩
    simp [createEntityItem, bind_eq, GM.bind, engine_noFault, qCountEntity, hnil,
      hobs, htag, GM.pure]

theorem entitiesNamed_ne_nil {s : GState} {n : String}
    (h : entityExists s n = true) : ¬(entitiesNamed s n = []) := by
  simp only [entityExists, List.any_eq_true] at h
  obtain ⟨e, he, hn⟩ := h
  intro hnil
  have hm : e ∈ entitiesNamed s n := List.mem_filter.mpr ⟨he, hn⟩
  rw [hnil] at hm
  cases hm

theorem createEntityItem_existing (e : Entity) (s : GState) (k : Nat)
    (h : entityExists s e.name = true) :
    createEntityItem e noFault s k = (Except.ok none, s, k + 1) := by
  have hne : ¬(entitiesNamed s e.name = []) := entitiesNamed_ne_nil h
  simp [createEntityItem, bind_eq, GM.bind, engine_noFault, qCountEntity, hne, GM.pure]

/-- C6: creating the same entity twice from a state where its name is fresh
returns `[e]` the first time and `[]` the second time, and the second call
leaves the entire graph state — the stored entity, its observations and its
tag links — unchanged. -/
theorem c6_createEntities_idempotent (s : GState) (e : Entity) (k : Nat)
    (h : entityExists s e.name = false) :
    ∃ s1 k1, createEntities [e] noFault s k = (Except.ok [e], s1, k1) ∧
      createEntities [e] noFault s1 k1 = (Except.ok [], s1, k1 + 1) := by
  obtain ⟨s1, k1, hrun, hex⟩ := createEntityItem_fresh e s k h
  refine ⟨s1, k1, ?_, ?_⟩
  · simp only [createEntities, bind_eq, GM.bind, hrun, GM.pure]
  · simp only [createEntities, bind_eq, GM.bind,
      createEntityItem_existing e s1 k1 hex, GM.pure]

/-- Witness for C6: creating a sample entity twice on the empty graph. -/
theorem c6_createEntities_idempotent_witness :
    entityExists GState.empty entitySample.name = false ∧
    ∃ s1 k1,
      createEntities [entitySample] noFault GState.empty 0 =
        (Except.ok [entitySample], s1, k1) ∧
      createEntities [entitySample] noFault s1 k1 = (Except.ok [], s1, k1 + 1) :=
  ⟨by decide, c6_createEntities_idempotent GState.empty entitySample 0 (by decide)⟩

@[simp] theorem qCountEntity_snd (n : String) (s : GState) : (qCountEntity n s).2 = s := rfl

@[simp] theorem qCountTag_snd (n : String) (s : GState) : (qCountTag n s).2 = s := rfl

@[simp] theorem qCountRelation_snd (r : Relation) (s : GState) :
    (qCountRelation r s).2 = s := rfl

@[simp] theorem qCountOwnedObs_snd (n c : String) (s : GState) :
    (qCountOwnedObs n c s).2 = s := rfl

@[simp] theorem qCountEntityTagLink_snd (n tn : String) (s : GState) :
    (qCountEntityTagLink n tn s).2 = s := rfl

@[simp] theorem qCountObsTagPath_snd (n c tn : String) (s : GState) :
    (qCountObsTagPath n c tn s).2 = s := rfl

@[simp] theorem qReadEntities_snd (s : GState) : (qReadEntities s).2 = s := rfl

@[simp] theorem qReadRelations_snd (s : GState) : (qReadRelations s).2 = s := rfl

@[simp] theorem qReadAllTags_snd (s : GState) : (qReadAllTags s).2 = s := rfl

@[simp] theorem qSearchEntities_snd (q : String) (s : GState) :
    (qSearchEntities q s).2 = s := rfl

@[simp] theorem qRelationsAmong_snd (names : List String) (s : GState) :
    (qRelationsAmong names s).2 = s := rfl

theorem tagsNamed_eq_nil {s : GState} {tn : String}
    (h : tagExists s tn = false) : tagsNamed s tn = [] := by
  simp only [tagExists, List.any_eq_false] at h
  simp only [tagsNamed, List.filter_eq_nil_iff]
  exact h

theorem tagExists_of_mem {s : GState} {t : TagNode} {tn : String}
    (h : t ∈ s.tags) (hn : t.name = tn) : tagExists s tn = true := by
  simp only [tagExists, List.any_eq_true]
  exact ⟨t, h, by simp [hn]⟩

theorem tagExists_of_tagsNamed_ne_nil {s : GState} {tn : String}
    (h : ¬(tagsNamed s tn = [])) : tagExists s tn = true := by
  cases ht : tagsNamed s tn with
  | nil => exact absurd ht h
  | cons t l =>
      have hm : t ∈ tagsNamed s tn := by rw [ht]; exact List.mem_cons_self t l
      obtain ⟨hmem, hname⟩ := List.mem_filter.mp hm
      exact tagExists_of_mem hmem (by simpa using hname)

theorem tagExists_append {s1 s : GState} {ext : List TagNode}
    (hext : s1.tags = s.tags ++ ext) {tn : String}
    (h : tagExists s tn = true) : tagExists s1 tn = true := by
  simp only [tagExists, List.any_eq_true] at h ⊢
  obtain ⟨t, hm, hp⟩ := h
  exact ⟨t, by rw [hext]; exact List.mem_append_left ext hm, hp⟩

theorem toTagStep_noFault (en c tn : String) (s : GState) (k : Nat) :
    ∃ v s2 k2, toTagStep en c tn noFault s k = (Except.ok v, s2, k2) ∧
      s2.tags =
        (if tagsNamed s tn = [] then s.tags ++ [TagNode.mk tn "" ""] else s.tags) := by
  by_cases h0 : tagsNamed s tn = []
  · by_cases hrc : (qCountObsTagPath en c tn (qCreateTag tn "" "" s).2).1 = 0
    · refine ⟨some tn, (qLinkObsTag en c tn (qCreateTag tn "" "" s).2).2,
        k + 1 + 1 + 1 + 1, ?_, ?_⟩
      · simp [toTagStep, bind_eq, GM.bind, engine_noFault, qCountTag, h0, hrc, GM.pure]
      · simp [qLinkObsTag, qCreateTag, h0]
    · refine ⟨none, (qCreateTag tn "" "" s).2, k + 1 + 1 + 1, ?_, ?_⟩
      · simp [toTagStep, bind_eq, GM.bind, engine_noFault, qCountTag, h0, hrc, GM.pure]
      · simp [qCreateTag, h0]
  · by_cases hrc : (qCountObsTagPath en c tn s).1 = 0
    · refine ⟨some tn, (qLinkObsTag en c tn s).2, k + 1 + 1 + 1, ?_, ?_⟩
      · simp [toTagStep, bind_eq, GM.bind, engine_noFault, qCountTag, h0, hrc, GM.pure]
      · simp [qLinkObsTag, h0]
    · refine ⟨none, s, k + 1 + 1, ?_, ?_⟩
      · simp [toTagStep, bind_eq, GM.bind, engine_noFault, qCountTag, h0, hrc, GM.pure]
      · simp [h0]

theorem toTagLoop_noFault_tags (en c : String) (tns : List String) :
    ∀ (s : GState) (k : Nat),
    ∃ r s1 k1, toTagLoop en c tns noFault s k = (Except.ok r, s1, k1) ∧
      (∃ ext, s1.tags = s.tags ++ ext) ∧
      (∀ tn ∈ tns, tagExists s1 tn = true ∧
        (tagExists s tn = false → TagNode.mk tn "" "" ∈ s1.tags)) := by
  induction tns with
  | nil => intro s k; exact ⟨[], s, k, rfl, ⟨[], by simp⟩, by simp⟩
  | cons tn rest ih =>
      intro s k
      obtain ⟨v, s2, k2, hstep, htags2⟩ := toTagStep_noFault en c tn s k
      obtain ⟨r, s1, k1, hrun, ⟨ext, hext⟩, hall⟩ := ih s2 k2
      have hs2app : ∃ ext2, s2.tags = s.tags ++ ext2 := by
        by_cases h0 : tagsNamed s tn = []
        · exact ⟨[TagNode.mk tn "" ""], by rw [htags2, if_pos h0]⟩
        · exact ⟨[], by rw [htags2, if_neg h0]; simp⟩
      obtain ⟨ext2, hext2⟩ := hs2app
      have hloop : toTagLoop en c (tn :: rest) noFault s k =
          (Except.ok (v.elim r (fun x => x :: r)), s1, k1) := by
        cases v <;>
          simp [toTagLoop, bind_eq, GM.bind, tryCatch_ok hstep, hrun, GM.pure, Option.elim]
      refine ⟨v.elim r (fun x => x :: r), s1, k1, hloop, ?_, ?_⟩
      · exact ⟨ext2 ++ ext, by rw [hext, hext2, List.append_assoc]⟩
      · intro t ht
        rcases List.mem_cons.mp ht with hteq | htrest
        · subst hteq
          by_cases h0 : tagsNamed s t = []
          · have hmem2 : TagNode.mk t "" "" ∈ s2.tags := by
              rw [htags2, if_pos h0]
              exact List.mem_append_right _ (List.mem_singleton.mpr rfl)
            have hmem1 : TagNode.mk t "" "" ∈ s1.tags := by
              rw [hext]; exact List.mem_append_left _ hmem2
            exact ⟨tagExists_of_mem hmem1 rfl, fun _ => hmem1⟩
          · have hex : tagExists s t = true := tagExists_of_tagsNamed_ne_nil h0
            refine ⟨tagExists_append hext (tagExists_append hext2 hex), ?_⟩
            intro hfalse
            rw [hex] at hfalse
            cases hfalse
        · obtain ⟨h1, h2⟩ := hall t htrest
          refine ⟨h1, ?_⟩
          intro hfalse
          by_cases h2ex : tagExists s2 t = true
          · simp only [tagExists, List.any_eq_true] at h2ex
            obtain ⟨u, hu, hun⟩ := h2ex
            rw [hext2] at hu
            rcases List.mem_append.mp hu with hus | huext
            · have : tagExists s t = true :=
                tagExists_of_mem hus (by simpa using hun)
              rw [hfalse] at this
              cases this
            · by_cases h0 : tagsNamed s tn = []
              · rw [htags2, if_pos h0] at hext2
                have hx : ext2 = [TagNode.mk tn "" ""] :=
                  List.append_cancel_left hext2.symm
                rw [hx] at huext
                have hu2 : u = TagNode.mk tn "" "" := List.mem_singleton.mp huext
                have hname : tn = t := by rw [hu2] at hun; simpa using hun
                have hmem2 : TagNode.mk t "" "" ∈ s2.tags := by
                  rw [htags2, if_pos h0, hname]
                  exact List.mem_append_right _ (List.mem_singleton.mpr rfl)
                rw [hext]
                exact List.mem_append_left _ hmem2
              · rw [htags2, if_neg h0] at hext2
                have hlen := congrArg List.length hext2
                simp only [List.length_append] at hlen
                have hx : ext2 = [] := List.length_eq_zero.mp (by omega)
                rw [hx] at huext
                cases huext
          · rw [Bool.not_eq_true] at h2ex
            exact h2 h2ex

/-- C9: `tagObservation` never fails on a fault-free run, and every name in
`tagNames` names an existing tag afterwards; a name that named no tag
beforehand has been created as a tag node with empty category and
description — even when no observation owned by the entity matches the
content. -/
theorem c9_tagObservation_creates_missing_tags (s : GState)
    (en c : String) (tns : List String) (k : Nat) :
    ∃ r s1 k1, tagObservation en c tns noFault s k = (Except.ok r, s1, k1) ∧
      (∀ tn ∈ tns, tagExists s1 tn = true ∧
        (tagExists s tn = false → TagNode.mk tn "" "" ∈ s1.tags)) := by
  obtain ⟨r, s1, k1, hrun, _, hall⟩ := toTagLoop_noFault_tags en c tns s k
  exact ⟨r, s1, k1, hrun, hall⟩

/-- Witness for C9: tagging a nonexistent observation of `A` with `vip`
still creates the tag node `vip`. -/
theorem c9_tagObservation_creates_missing_tags_witness :
    ∃ r s1 k1, tagObservation "A" "x" ["vip"] noFault stateA 0 =
      (Except.ok r, s1, k1) ∧
      tagExists s1 "vip" = true ∧ TagNode.mk "vip" "" "" ∈ s1.tags := by
  obtain ⟨r, s1, k1, hrun, hall⟩ :=
    c9_tagObservation_creates_missing_tags stateA "A" "x" ["vip"] 0
  obtain ⟨h1, h2⟩ := hall "vip" (by simp)
  exact ⟨r, s1, k1, hrun, h1, h2 (by decide)⟩

theorem engine_notFaulty {α : Type} (q : GState → α × GState) {or : Nat → Bool}
    {k : Nat} (h : or k = false) (s : GState) :
    engine q or s k = (Except.ok (q s).1, (q s).2, k + 1) := by
  simp [engine, h]

theorem engine_faulty {α : Type} (q : GState → α × GState) {or : Nat → Bool}
    {k : Nat} (h : or k = true) (s : GState) :
    engine q or s k = (Except.error GErr.storageFault, s, k + 1) := by
  simp [engine, h]

theorem aoContentLoop_no_error (en : String) (cs : List String) :
    ∀ (or : Nat → Bool) (s : GState) (k : Nat),
    ∃ r s1 k1, aoContentLoop en cs or s k = (Except.ok r, s1, k1) := by
  induction cs with
  | nil => intro or s k; exact ⟨[], s, k, rfl⟩
  | cons c rest ih =>
      intro or s k
      simp only [aoContentLoop]
      exact bind_no_error (tryCatch_pure_ok none or s k)
        (fun a s1 k1 => bind_no_error (ih or s1 k1)
          (fun b s2 k2 => ⟨_, s2, k2, rfl⟩))

theorem teTagLoop_no_error (en : String) (tns : List String) :
    ∀ (or : Nat → Bool) (s : GState) (k : Nat),
    ∃ r s1 k1, teTagLoop en tns or s k = (Except.ok r, s1, k1) := by
  induction tns with
  | nil => intro or s k; exact ⟨[], s, k, rfl⟩
  | cons tn rest ih =>
      intro or s k
      simp only [teTagLoop]
      exact bind_no_error (tryCatch_pure_ok none or s k)
        (fun a s1 k1 => bind_no_error (ih or s1 k1)
          (fun b s2 k2 => ⟨_, s2, k2, rfl⟩))

/-- C3 counterexample: with the entity `A` present, a storage fault on the
second engine call (the per-content existence check) during
`addObservations([{entityName: A, contents: [x]}])` is caught by the inner
catch: the call still returns `ok` with an empty added list instead of
propagating the fault to the caller. -/
theorem c3_addObservations_swallows_content_fault :
    oracleAt1 1 = true ∧
    addObservations [⟨"A", ["x"]⟩] oracleAt1 stateA 0 =
      (Except.ok [⟨"A", []⟩], stateA, 2) :=
  ⟨by decide, by decide⟩

/-- C3 (amended): `createEntities` and `createRelations` propagate any error
arising in an item to the caller, aborting the remaining items;
`addObservations` and `tagEntity` propagate the `NotFound` condition and a
storage fault of the entity-existence check, but catch a storage fault that
occurs while processing an individual observation content or tag name,
skipping that content/tag and continuing with the rest (their inner loops
never surface an error). -/
theorem c3_amended_error_propagation :
    (∀ (or : Nat → Bool) (s : GState) (k : Nat) (e : Entity) (rest : List Entity)
        (err : GErr) (s1 : GState) (k1 : Nat),
        createEntityItem e or s k = (Except.error err, s1, k1) →
        createEntities (e :: rest) or s k = (Except.error err, s1, k1)) ∧
    (∀ (or : Nat → Bool) (s : GState) (k : Nat) (r : Relation) (rest : List Relation)
        (err : GErr) (s1 : GState) (k1 : Nat),
        createRelationItem r or s k = (Except.error err, s1, k1) →
        createRelations (r :: rest) or s k = (Except.error err, s1, k1)) ∧
    (∀ (or : Nat → Bool) (s : GState) (k : Nat) (ob : ObsInput) (rest : List ObsInput),
        or k = false → entityExists s ob.entityName = false →
        addObservations (ob :: rest) or s k =
          (Except.error (GErr.notFound ob.entityName), s, k + 1)) ∧
    (∀ (or : Nat → Bool) (s : GState) (k : Nat) (ob : ObsInput) (rest : List ObsInput),
        or k = true →
        addObservations (ob :: rest) or s k =
          (Except.error GErr.storageFault, s, k + 1)) ∧
    (∀ (en : String) (cs : List String) (or : Nat → Bool) (s : GState) (k : Nat),
        ∃ r s1 k1, aoContentLoop en cs or s k = (Except.ok r, s1, k1)) ∧
    (∀ (or : Nat → Bool) (s : GState) (k : Nat) (en : String) (tns : List String),
        or k = false → entityExists s en = false →
        tagEntity en tns or s k = (Except.error (GErr.notFound en), s, k + 1)) ∧
    (∀ (or : Nat → Bool) (s : GState) (k : Nat) (en : String) (tns : List String),
        or k = true →
        tagEntity en tns or s k = (Except.error GErr.storageFault, s, k + 1)) ∧
    (∀ (en : String) (tns : List String) (or : Nat → Bool) (s : GState) (k : Nat),
        ∃ r s1 k1, teTagLoop en tns or s k = (Except.ok r, s1, k1)) := by
  refine ⟨?_, ?_, ?_, ?_, aoContentLoop_no_error, ?_, ?_, teTagLoop_no_error⟩
  · intro or s k e rest err s1 k1 h
    simp only [createEntities]
    exact bind_error h
  · intro or s k r rest err s1 k1 h
    simp only [createRelations]
    exact bind_error h
  · intro or s k ob rest hk hmiss
    have hnil : entitiesNamed s ob.entityName = [] := entitiesNamed_eq_nil hmiss
    simp [addObservations, bind_eq, GM.bind, engine_notFaulty _ hk, qCountEntity,
      hnil, GM.throw]
  · intro or s k ob rest hk
    simp only [addObservations]
    rw [bind_error (engine_faulty (qCountEntity ob.entityName) hk s)]
  · intro or s k en tns hk hmiss
    have hnil : entitiesNamed s en = [] := entitiesNamed_eq_nil hmiss
    simp [tagEntity, bind_eq, GM.bind, engine_notFaulty _ hk, qCountEntity,
      hnil, GM.throw]
  · intro or s k en tns hk
    simp only [tagEntity]
    rw [bind_error (engine_faulty (qCountEntity en) hk s)]

/-- Witness for the amended C3: a fault on the first call aborts a
`createEntities` batch; a missing entity aborts `addObservations` with
`NotFound`; the `tagEntity` tag loop returns `ok` even under a fault. -/
theorem c3_amended_error_propagation_witness :
    createEntities [entitySample] oracleAt0 GState.empty 0 =
      (Except.error GErr.storageFault, GState.empty, 1) ∧
    addObservations [⟨"Ghost", ["x"]⟩] noFault GState.empty 0 =
      (Except.error (GErr.notFound "Ghost"), GState.empty, 1) ∧
    ∃ r s1 k1, teTagLoop "A" ["vip"] oracleAt0 stateA 0 = (Except.ok r, s1, k1) := by
  refine ⟨?_, ?_, ?_⟩
  · exact c3_amended_error_propagation.1 oracleAt0 GState.empty 0 entitySample []
      GErr.storageFault GState.empty 1 (by decide)
  · exact c3_amended_error_propagation.2.2.1 noFault GState.empty 0
      ⟨"Ghost", ["x"]⟩ [] (by decide) (by decide)
  · exact c3_amended_error_propagation.2.2.2.2.2.2.2 "A" ["vip"] oracleAt0 stateA 0

theorem doObsLoop_no_error (en : String) (cs : List String) :
    ∀ (or : Nat → Bool) (s : GState) (k : Nat),
    ∃ s1 k1, doObsLoop en cs or s k = (Except.ok (), s1, k1) := by
  induction cs with
  | nil => intro or s k; exact ⟨s, k, rfl⟩
  | cons c rest ih =>
      intro or s k
      simp only [doObsLoop]
      obtain ⟨b, s2, k2, h⟩ := bind_no_error (tryCatch_pure_ok () or s k)
        (fun a s1 k1 => by
          obtain ⟨s2, k2, h2⟩ := ih or s1 k1
          exact ⟨(), s2, k2, h2⟩)
      exact ⟨s2, k2, by rw [h]⟩

theorem deleteEntities_no_error (ns : List String) :
    ∀ (or : Nat → Bool) (s : GState) (k : Nat),
    ∃ s1 k1, deleteEntities ns or s k = (Except.ok (), s1, k1) := by
  induction ns with
  | nil => intro or s k; exact ⟨s, k, rfl⟩
  | cons n rest ih =>
      intro or s k
      simp only [deleteEntities]
      obtain ⟨b, s2, k2, h⟩ := bind_no_error (tryCatch_pure_ok () or s k)
        (fun a s1 k1 => by
          obtain ⟨s2, k2, h2⟩ := ih or s1 k1
          exact ⟨(), s2, k2, h2⟩)
      exact ⟨s2, k2, by rw [h]⟩

theorem deleteObservations_no_error (ds : List ObsDeletion) :
    ∀ (or : Nat → Bool) (s : GState) (k : Nat),
    ∃ s1 k1, deleteObservations ds or s k = (Except.ok (), s1, k1) := by
  induction ds with
  | nil => intro or s k; exact ⟨s, k, rfl⟩
  | cons d rest ih =>
      intro or s k
      simp only [deleteObservations]
      obtain ⟨b, s2, k2, h⟩ := bind_no_error
        (by
          obtain ⟨s1, k1, h1⟩ := doObsLoop_no_error d.entityName d.observations or s k
          exact ⟨(), s1, k1, h1⟩)
        (fun a s1 k1 => by
          obtain ⟨s2, k2, h2⟩ := ih or s1 k1
          exact ⟨(), s2, k2, h2⟩)
      exact ⟨s2, k2, by rw [h]⟩

theorem deleteRelations_no_error (rs : List Relation) :
    ∀ (or : Nat → Bool) (s : GState) (k : Nat),
    ∃ s1 k1, deleteRelations rs or s k = (Except.ok (), s1, k1) := by
  induction rs with
  | nil => intro or s k; exact ⟨s, k, rfl⟩
  | cons r rest ih =>
      intro or s k
      simp only [deleteRelations]
      obtain ⟨b, s2, k2, h⟩ := bind_no_error (tryCatch_pure_ok () or s k)
        (fun a s1 k1 => by
          obtain ⟨s2, k2, h2⟩ := ih or s1 k1
          exact ⟨(), s2, k2, h2⟩)
      exact ⟨s2, k2, by rw [h]⟩

theorem rtTagLoop_no_error (en : String) (tns : List String) :
    ∀ (or : Nat → Bool) (s : GState) (k : Nat),
    ∃ r s1 k1, rtTagLoop en tns or s k = (Except.ok r, s1, k1) := by
  induction tns with
  | nil => intro or s k; exact ⟨[], s, k, rfl⟩
  | cons tn rest ih =>
      intro or s k
      simp only [rtTagLoop]
      exact bind_no_error (tryCatch_pure_ok none or s k)
        (fun a s1 k1 => bind_no_error (ih or s1 k1)
          (fun b s2 k2 => ⟨_, s2, k2, rfl⟩))

/-- C7: the delete/tag-removal operations never surface an error to the
caller, under every fault oracle; and a fault on one item does not stop the
remaining items: with the first engine call faulting, `deleteEntities`
still deletes `B` after failing on `A`, and `removeTagsFromEntity` still
removes the `extra` link after failing on `vip`. -/
theorem c7_delete_paths_never_error :
    (∀ (ns : List String) (or : Nat → Bool) (s : GState) (k : Nat),
        ∃ s1 k1, deleteEntities ns or s k = (Except.ok (), s1, k1)) ∧
    (∀ (ds : List ObsDeletion) (or : Nat → Bool) (s : GState) (k : Nat),
        ∃ s1 k1, deleteObservations ds or s k = (Except.ok (), s1, k1)) ∧
    (∀ (rs : List Relation) (or : Nat → Bool) (s : GState) (k : Nat),
        ∃ s1 k1, deleteRelations rs or s k = (Except.ok (), s1, k1)) ∧
    (∀ (en : String) (tns : List String) (or : Nat → Bool) (s : GState) (k : Nat),
        ∃ r s1 k1, removeTagsFromEntity en tns or s k = (Except.ok r, s1, k1)) ∧
    deleteEntities ["A", "B"] oracleAt0 stateAB 0 =
      (Except.ok (), stateOnlyA, 3) ∧
    removeTagsFromEntity "A" ["vip", "extra"] oracleAt0 stateATagged 0 =
      (Except.ok ["extra"], stateATaggedAfter, 2) :=
  ⟨deleteEntities_no_error, deleteObservations_no_error, deleteRelations_no_error,
   fun en tns => rtTagLoop_no_error en tns, by decide, by decide⟩

theorem isEmpty_false_iff {α : Type} {l : List α} : l.isEmpty = false ↔ l ≠ [] := by
  cases l <;> simp

theorem list_any_congr {α : Type} {l : List α} {f g : α → Bool}
    (h : ∀ a ∈ l, f a = g a) : l.any f = l.any g := by
  induction l with
  | nil => rfl
  | cons a t ih =>
      simp [List.any_cons, h a (List.mem_cons_self a t),
        ih (fun x hx => h x (List.mem_cons_of_mem a hx))]

theorem filter_filter_of_imp {α : Type} {l : List α} {P Q : α → Bool}
    (h : ∀ x ∈ l, Q x = true → P x = true) :
    (l.filter P).filter Q = l.filter Q := by
  induction l with
  | nil => rfl
  | cons a t ih =>
      have iht := ih (fun x hx => h x (List.mem_cons_of_mem a hx))
      by_cases hp : P a = true
      · by_cases hq : Q a = true
        · simp [List.filter_cons, hp, hq, iht]
        · simp only [Bool.not_eq_true] at hq
          simp [List.filter_cons, hp, hq, iht]
      · have hq : Q a = false := by
          cases hqa : Q a
          · rfl
          · exact absurd (h a (List.mem_cons_self a t) hqa) hp
        simp only [Bool.not_eq_true] at hp
        simp [List.filter_cons, hp, hq, iht]

theorem flatMap_filter_of_nil {α β : Type} {l : List α} {p : α → Bool}
    {f : α → List β} (h : ∀ x ∈ l, p x = false → f x = []) :
    (l.filter p).flatMap f = l.flatMap f := by
  induction l with
  | nil => rfl
  | cons a t ih =>
      have iht := ih (fun x hx => h x (List.mem_cons_of_mem a hx))
      by_cases hp : p a = true
      · simp [List.filter_cons, hp, iht]
      · simp only [Bool.not_eq_true] at hp
        simp [List.filter_cons, hp, iht, h a (List.mem_cons_self a t) hp]

theorem entityExists_of_mem {s : GState} {e : EntityNode} {n : String}
    (he : e ∈ s.entities) (hn : e.name = n) : entityExists s n = true := by
  simp only [entityExists, List.any_eq_true]
  exact ⟨e, he, by simp [hn]⟩

theorem searchRowsFor_ne_nil (s : GState) (q : String) (e : EntityNode) :
    searchRowsFor s (strToLower q) e ≠ [] ↔ entityMatchesQuery s q e = true := by
  unfold searchRowsFor entityMatchesQuery
  rw [Ne, List.filter_eq_nil_iff]
  push_neg
  simp only [Bool.or_eq_true, List.any_eq_true]
  by_cases hc : (entityObsContents s e.name).isEmpty = true
  · have hnil : entityObsContents s e.name = [] := List.isEmpty_iff.mp hc
    rw [if_pos hc]
    constructor
    · rintro ⟨x, hx, hpred⟩
      have hxe : x = none := by simpa using hx
      subst hxe
      simp only [Bool.or_eq_true] at hpred
      rcases hpred with (h | h) | h
      · exact Or.inl (Or.inl h)
      · exact Or.inl (Or.inr h)
      · simp at h
    · intro h
      refine ⟨none, List.mem_singleton.mpr rfl, ?_⟩
      rcases h with (h | h) | ⟨c, hc2, _⟩
      · simp [h]
      · simp [h]
      · rw [hnil] at hc2; cases hc2
  · have hne : entityObsContents s e.name ≠ [] :=
      isEmpty_false_iff.mp (by simpa using hc)
    rw [if_neg hc]
    constructor
    · rintro ⟨x, hx, hpred⟩
      obtain ⟨c, hcmem, hxc⟩ := List.mem_map.mp hx
      subst hxc
      simp only [Bool.or_eq_true] at hpred
      rcases hpred with (h | h) | h
      · exact Or.inl (Or.inl h)
      · exact Or.inl (Or.inr h)
      · exact Or.inr ⟨c, hcmem, h⟩
    · intro h
      obtain ⟨c0, hc0⟩ := List.exists_mem_of_ne_nil _ hne
      rcases h with (h | h) | ⟨c, hcmem, hcont⟩
      · exact ⟨some c0, List.mem_map_of_mem some hc0, by simp [h]⟩
      · exact ⟨some c0, List.mem_map_of_mem some hc0, by simp [h]⟩
      · exact ⟨some c, List.mem_map_of_mem some hcmem, by simp [hcont]⟩

theorem mem_qSearchEntities_names (q : String) (s : GState) (n : String) :
    (n ∈ (qSearchEntities q s).1.map Entity.name) ↔
      ∃ e, e ∈ s.entities ∧ e.name = n ∧ entityMatchesQuery s q e = true := by
  simp only [qSearchEntities, List.map_map, List.mem_map, Function.comp_apply,
    List.mem_dedup, List.mem_filter, Bool.not_eq_true']
  constructor
  · rintro ⟨r, ⟨e, ⟨hee, hpe⟩, hre⟩, hname⟩
    refine ⟨e, hee, ?_, ?_⟩
    · rw [← hre] at hname
      simpa using hname
    · exact (searchRowsFor_ne_nil s q e).mp (isEmpty_false_iff.mp hpe)
  · rintro ⟨e, he, hn, hm⟩
    exact ⟨(e.name, e.entityType, ((searchRowsFor s (strToLower q) e).filterMap id).dedup),
      ⟨e, ⟨he, isEmpty_false_iff.mpr ((searchRowsFor_ne_nil s q e).mpr hm)⟩, rfl⟩,
      by simpa using hn⟩

/-- C8: on a fault-free run, `searchNodes(q)` returns exactly the entities
for which `q` is a case-insensitive substring of the name, of the type, or
of the content of an owned observation, and exactly the relations whose two
endpoints both lie in the returned entity set. -/
theorem c8_searchNodes_characterization (q : String) (s : GState) (k : Nat) :
    ∃ out k1, searchNodes q noFault s k = (Except.ok out, s, k1) ∧
      (∀ n : String, n ∈ out.entities.map Entity.name ↔
        ∃ e, e ∈ s.entities ∧ e.name = n ∧ entityMatchesQuery s q e = true) ∧
      out.relations = s.relatedTo.filter (fun r =>
        (out.entities.map Entity.name).contains r.fromName &&
        (out.entities.map Entity.name).contains r.toName) := by
  by_cases hq : (qSearchEntities q s).1 = []
  · refine ⟨⟨(qSearchEntities q s).1, [], []⟩, k + 1, ?_, ?_, ?_⟩
    · simp [searchNodes, bind_eq, GM.bind, engine_noFault, hq, GM.pure]
    · intro n
      exact mem_qSearchEntities_names q s n
    · show ([] : List Relation) = _
      rw [hq]
      symm
      rw [List.filter_eq_nil_iff]
      intro r _
      simp
  · refine ⟨⟨(qSearchEntities q s).1,
      (qRelationsAmong ((qSearchEntities q s).1.map (fun e => e.name)) s).1, []⟩,
      k + 1 + 1, ?_, ?_, ?_⟩
    · simp [searchNodes, bind_eq, GM.bind, engine_noFault, hq, GM.pure]
    · intro n
      exact mem_qSearchEntities_names q s n
    · show (qRelationsAmong ((qSearchEntities q s).1.map (fun e => e.name)) s).1 = _
      unfold qRelationsAmong
      apply List.filter_congr
      intro r _
      by_cases hf :
          ((qSearchEntities q s).1.map (fun e : Entity => e.name)).contains r.fromName = true
      · by_cases ht :
            ((qSearchEntities q s).1.map (fun e : Entity => e.name)).contains r.toName = true
        · obtain ⟨e1, he1, hn1, _⟩ :=
            (mem_qSearchEntities_names q s r.fromName).mp (List.elem_iff.mp hf)
          obtain ⟨e2, he2, hn2, _⟩ :=
            (mem_qSearchEntities_names q s r.toName).mp (List.elem_iff.mp ht)
          rw [entityExists_of_mem he1 hn1, entityExists_of_mem he2 hn2, hf, ht]
          rfl
        · simp only [Bool.not_eq_true] at ht
          rw [ht]
          simp
      · simp only [Bool.not_eq_true] at hf
        rw [hf]
        simp

theorem strContains_empty_pat (x : String) : strContains x "" = true := by
  have h : ("" : String).toList = [] := rfl
  simp [strContains, h, List.nil_infix]

theorem entityMatchesQuery_empty (s : GState) (e : EntityNode) :
    entityMatchesQuery s "" e = true := by
  have h : strToLower "" = "" := rfl
  simp [entityMatchesQuery, h, strContains_empty_pat]

theorem mem_names_of_entityExists {s : GState} {n : String}
    (h : entityExists s n = true) : n ∈ s.entities.map EntityNode.name := by
  simp only [entityExists, List.any_eq_true] at h
  obtain ⟨e, he, hn⟩ := h
  exact List.mem_map.mpr ⟨e, he, by simpa using hn⟩

/-- C10: on a fault-free run over a well-formed graph (unique entity names,
relation endpoints live), `searchNodes("")` matches every entity — the empty
string is a substring of every name, type and content — and returns all
entities together with all relations. -/
theorem c10_searchNodes_empty_query (s : GState) (k : Nat)
    (hN : (s.entities.map EntityNode.name).Nodup)
    (hR : ∀ r ∈ s.relatedTo,
        entityExists s r.fromName = true ∧ entityExists s r.toName = true) :
    ∃ out k1, searchNodes "" noFault s k = (Except.ok out, s, k1) ∧
      out.entities.map Entity.name = s.entities.map EntityNode.name ∧
      out.relations = s.relatedTo := by
  have hfilter : s.entities.filter
      (fun e => !(searchRowsFor s (strToLower "") e).isEmpty) = s.entities := by
    apply List.filter_eq_self.mpr
    intro e he
    simp only [Bool.not_eq_true']
    exact isEmpty_false_iff.mpr
      ((searchRowsFor_ne_nil s "" e).mpr (entityMatchesQuery_empty s e))
  have hrowsNodup :
      ((s.entities.map (fun e => (e.name, e.entityType,
        ((searchRowsFor s (strToLower "") e).filterMap id).dedup))).Nodup) := by
    apply List.Nodup.of_map (fun r : String × String × List String => r.1)
    rw [List.map_map]
    exact hN
  have hnames : (qSearchEntities "" s).1.map Entity.name =
      s.entities.map EntityNode.name := by
    simp only [qSearchEntities, hfilter]
    rw [List.dedup_eq_self.mpr hrowsNodup, List.map_map, List.map_map]
    exact List.map_congr_left (fun e _ => rfl)
  have hmemnames : ∀ n : String, entityExists s n = true →
      ((qSearchEntities "" s).1.map (fun e : Entity => e.name)).contains n = true := by
    intro n hn
    apply List.elem_iff.mpr
    show n ∈ (qSearchEntities "" s).1.map Entity.name
    rw [hnames]
    exact mem_names_of_entityExists hn
  by_cases hq : (qSearchEntities "" s).1 = []
  · have hentnil : s.entities = [] := by
      have := hnames
      rw [hq] at this
      exact List.map_eq_nil_iff.mp this.symm
    have hrelnil : s.relatedTo = [] := by
      cases hrel : s.relatedTo with
      | nil => rfl
      | cons r t =>
          have hr := (hR r (by rw [hrel]; exact List.mem_cons_self r t)).1
          rw [entityExists, hentnil] at hr
          cases hr
    refine ⟨⟨(qSearchEntities "" s).1, [], []⟩, k + 1, ?_, hnames, ?_⟩
    · simp [searchNodes, bind_eq, GM.bind, engine_noFault, hq, GM.pure]
    · rw [hrelnil]
  · refine ⟨⟨(qSearchEntities "" s).1,
      (qRelationsAmong ((qSearchEntities "" s).1.map (fun e => e.name)) s).1, []⟩,
      k + 1 + 1, ?_, hnames, ?_⟩
    · simp [searchNodes, bind_eq, GM.bind, engine_noFault, hq, GM.pure]
    · show (qRelationsAmong ((qSearchEntities "" s).1.map (fun e => e.name)) s).1 = _
      unfold qRelationsAmong
      apply List.filter_eq_self.mpr
      intro r hr
      obtain ⟨h1, h2⟩ := hR r hr
      rw [h1, h2, hmemnames r.fromName h1, hmemnames r.toName h2]
      rfl

theorem deleteEntities_single_noFault (x : String) (s : GState) (k : Nat) :
    deleteEntities [x] noFault s k =
      (Except.ok (), deleteEntityEffect x s, k + 1 + 1) := by
  simp [deleteEntities, deleteEntityStep, bind_eq, GM.bind, GM.tryCatch,
    engine_noFault, GM.pure, deleteEntityEffect]

theorem readGraph_noFault (s : GState) (k : Nat) :
    readGraph noFault s k = (Except.ok (readGraphPure s), s, k + 1 + 1 + 1) := by
  simp [readGraph, getAllTags, bind_eq, GM.bind, engine_noFault, GM.pure, readGraphPure]

theorem deleteEntityEffect_entities (x : String) (s : GState) :
    (deleteEntityEffect x s).entities =
      s.entities.filter (fun e => !(e.name == x)) := rfl

theorem deleteEntityEffect_relatedTo (x : String) (s : GState) :
    (deleteEntityEffect x s).relatedTo =
      s.relatedTo.filter (fun r => !(r.fromName == x) && !(r.toName == x)) := rfl

theorem deleteEntityEffect_tags (x : String) (s : GState) :
    (deleteEntityEffect x s).tags = s.tags := rfl

theorem deleteEntityEffect_entityTaggedWith (x : String) (s : GState) :
    (deleteEntityEffect x s).entityTaggedWith =
      s.entityTaggedWith.filter (fun p => !(p.entity == x)) := rfl

theorem deleteEntityEffect_hasObservation (x : String) (s : GState) :
    (deleteEntityEffect x s).hasObservation =
      s.hasObservation.filter (fun h => !(h.owner == x)) := rfl

theorem deleteEntityEffect_observations (x : String) (s : GState) :
    (deleteEntityEffect x s).observations =
      s.observations.filter (fun o =>
        (qDetachDeleteEntity x s).2.hasObservation.any (fun h =>
          h.obsId == o.id && entityExists (qDetachDeleteEntity x s).2 h.owner)) := rfl

theorem qDetachDeleteEntity_hasObservation (x : String) (s : GState) :
    (qDetachDeleteEntity x s).2.hasObservation =
      s.hasObservation.filter (fun h => !(h.owner == x)) := rfl

theorem qDetachDeleteEntity_entities (x : String) (s : GState) :
    (qDetachDeleteEntity x s).2.entities =
      s.entities.filter (fun e => !(e.name == x)) := rfl

/-- C5: a fault-free `deleteEntities(["x"])` succeeds, and in the graph that
`readGraph` then returns there is no entity named `x`, no relation with `x`
as an endpoint, and every observation node that was exclusively owned by `x`
has been deleted; when `x` names no entity the whole call leaves the
`readGraph` view unchanged (and still raises no error). -/
theorem c5_deleteEntities_cascade (s : GState) (x : String) (k : Nat) :
    deleteEntities [x] noFault s k =
      (Except.ok (), deleteEntityEffect x s, k + 1 + 1) ∧
    readGraph noFault (deleteEntityEffect x s) k =
      (Except.ok (readGraphPure (deleteEntityEffect x s)),
        deleteEntityEffect x s, k + 1 + 1 + 1) ∧
    (x ∉ (readGraphPure (deleteEntityEffect x s)).entities.map Entity.name) ∧
    (∀ r ∈ (readGraphPure (deleteEntityEffect x s)).relations,
        r.fromName ≠ x ∧ r.toName ≠ x) ∧
    (∀ o ∈ s.observations, exclusivelyOwnedBy s o x = true →
        o.id ∉ (deleteEntityEffect x s).observations.map ObservationNode.id) ∧
    (x ∉ s.entities.map EntityNode.name →
        readGraphPure (deleteEntityEffect x s) = readGraphPure s) := by
  refine ⟨deleteEntities_single_noFault x s k, readGraph_noFault _ k,
    ?_, ?_, ?_, ?_⟩
  · intro hmem
    simp only [readGraphPure, qReadEntities, List.map_map, List.mem_map,
      Function.comp_apply] at hmem
    obtain ⟨e, he, hname⟩ := hmem
    rw [deleteEntityEffect_entities] at he
    obtain ⟨_, hpred⟩ := List.mem_filter.mp he
    have hname2 : e.name = x := hname
    rw [hname2] at hpred
    simp at hpred
  · intro r hr
    have hr2 : r ∈ (deleteEntityEffect x s).relatedTo := (List.mem_filter.mp hr).1
    rw [deleteEntityEffect_relatedTo] at hr2
    have hpred := (List.mem_filter.mp hr2).2
    simp only [Bool.and_eq_true, Bool.not_eq_true'] at hpred
    constructor
    · simpa using hpred.1
    · simpa using hpred.2
  · intro o ho hexcl hmem
    obtain ⟨o2, ho2, hid⟩ := List.mem_map.mp hmem
    rw [deleteEntityEffect_observations] at ho2
    obtain ⟨_, hpred⟩ := List.mem_filter.mp ho2
    simp only [List.any_eq_true] at hpred
    obtain ⟨h, hh, hcond⟩ := hpred
    rw [qDetachDeleteEntity_hasObservation] at hh
    obtain ⟨hhmem, howner⟩ := List.mem_filter.mp hh
    simp only [Bool.and_eq_true] at hcond
    simp only [exclusivelyOwnedBy, Bool.and_eq_true, List.all_eq_true] at hexcl
    have hx := hexcl.2 h hhmem
    have hido : (h.obsId == o.id) = true := by
      have h1 : h.obsId = o2.id := by simpa using hcond.1
      rw [h1, hid]
      simp
    rw [hido] at hx
    simp only [Bool.not_true, Bool.false_or] at hx
    rw [hx] at howner
    simp at howner
  · intro hnx
    have hfilterent : s.entities.filter (fun e => !(e.name == x)) = s.entities := by
      apply List.filter_eq_self.mpr
      intro e he
      have hne : e.name ≠ x := fun heq => hnx (List.mem_map.mpr ⟨e, he, heq⟩)
      simp [hne]
    have hent : (deleteEntityEffect x s).entities = s.entities := by
      rw [deleteEntityEffect_entities, hfilterent]
    have hdetent : (qDetachDeleteEntity x s).2.entities = s.entities := by
      rw [qDetachDeleteEntity_entities, hfilterent]
    have hEx : ∀ n, entityExists (deleteEntityEffect x s) n = entityExists s n := by
      intro n
      simp [entityExists, hent]
    have hdetEx : ∀ n, entityExists (qDetachDeleteEntity x s).2 n = entityExists s n := by
      intro n
      simp [entityExists, hdetent]
    have hobsfull : (deleteEntityEffect x s).observations =
        s.observations.filter (fun o => s.hasObservation.any (fun h =>
          (!(h.owner == x)) && (h.obsId == o.id && entityExists s h.owner))) := by
      rw [deleteEntityEffect_observations]
      apply List.filter_congr
      intro o _
      rw [qDetachDeleteEntity_hasObservation]
      rw [List.any_filter]
      apply list_any_congr
      intro h _
      rw [hdetEx]
    have hobs : ∀ e ∈ s.entities,
        entityObsContents (deleteEntityEffect x s) e.name =
          entityObsContents s e.name := by
      intro e he
      have hne : e.name ≠ x := fun heq => hnx (List.mem_map.mpr ⟨e, he, heq⟩)
      unfold entityObsContents
      rw [deleteEntityEffect_hasObservation]
      rw [flatMap_filter_of_nil (by
        intro h _ hp
        have hox : h.owner = x := by simpa using hp
        have : (h.owner == e.name) = false := by
          rw [hox]
          simp [Ne.symm hne]
        simp [this])]
      apply List.flatMap_congr
      intro h hh
      by_cases how : (h.owner == e.name) = true
      · rw [if_pos how, if_pos how]
        have howne : h.owner = e.name := by simpa using how
        rw [hobsfull]
        rw [filter_filter_of_imp ?_]
        intro o _ hq
        simp only [List.any_eq_true]
        refine ⟨h, hh, ?_⟩
        have hoid : o.id = h.obsId := by simpa using hq
        have hnex : (h.owner == x) = false := by
          rw [howne]
          simp [hne]
        rw [hnex, hoid, howne]
        simp [entityExists_of_mem he rfl]
      · rw [if_neg how, if_neg how]
    have htags : ∀ e ∈ s.entities,
        entityTagNames (deleteEntityEffect x s) e.name =
          entityTagNames s e.name := by
      intro e he
      have hne : e.name ≠ x := fun heq => hnx (List.mem_map.mpr ⟨e, he, heq⟩)
      unfold entityTagNames
      rw [deleteEntityEffect_entityTaggedWith, deleteEntityEffect_tags]
      rw [flatMap_filter_of_nil (by
        intro p _ hp
        have hox : p.entity = x := by simpa using hp
        have : (p.entity == e.name) = false := by
          rw [hox]
          simp [Ne.symm hne]
        simp [this])]
    have hA : (qReadEntities (deleteEntityEffect x s)).1 = (qReadEntities s).1 := by
      unfold qReadEntities
      rw [hent]
      apply List.map_congr_left
      intro e he
      rw [hobs e he, htags e he]
    have hB : (qReadRelations (deleteEntityEffect x s)).1 = (qReadRelations s).1 := by
      unfold qReadRelations
      rw [show ((deleteEntityEffect x s).relatedTo.filter (fun r =>
          entityExists (deleteEntityEffect x s) r.fromName &&
          entityExists (deleteEntityEffect x s) r.toName)) =
          ((deleteEntityEffect x s).relatedTo.filter (fun r =>
          entityExists s r.fromName && entityExists s r.toName)) from
        List.filter_congr (fun r _ => by rw [hEx, hEx])]
      rw [deleteEntityEffect_relatedTo]
      apply filter_filter_of_imp
      intro r _ hq
      simp only [Bool.and_eq_true] at hq
      have hf : r.fromName ≠ x := by
        intro heq
        have := mem_names_of_entityExists hq.1
        rw [heq] at this
        exact hnx this
      have ht : r.toName ≠ x := by
        intro heq
        have := mem_names_of_entityExists hq.2
        rw [heq] at this
        exact hnx this
      simp [hf, ht]
    have hC : (qReadAllTags (deleteEntityEffect x s)).1 = (qReadAllTags s).1 := by
      unfold qReadAllTags
      rw [deleteEntityEffect_tags]
    simp [readGraphPure, hA, hB, hC]

/-- Witness for C5: deleting `Anthropic` from `stateJW` removes observation
node 0 (exclusively owned by it); deleting the unknown name `Ghost` leaves
the `readGraph` view unchanged. -/
theorem c5_deleteEntities_cascade_witness :
    (⟨0, "x"⟩ : ObservationNode) ∈ stateJW.observations ∧
    exclusivelyOwnedBy stateJW ⟨0, "x"⟩ "Anthropic" = true ∧
    (0 : Nat) ∉
      (deleteEntityEffect "Anthropic" stateJW).observations.map ObservationNode.id ∧
    ("Ghost" ∉ stateJW.entities.map EntityNode.name) ∧
    readGraphPure (deleteEntityEffect "Ghost" stateJW) = readGraphPure stateJW := by
  refine ⟨by decide, by decide, ?_, by decide, ?_⟩
  · exact (c5_deleteEntities_cascade stateJW "Anthropic" 0).2.2.2.2.1
      ⟨0, "x"⟩ (by decide) (by decide)
  · exact (c5_deleteEntities_cascade stateJW "Ghost" 0).2.2.2.2.2 (by decide)

/-- Witness for C10: the empty query on the two-entity graph `stateJW`
returns both entities and the `works_at` relation. -/
theorem c10_searchNodes_empty_query_witness :
    (stateJW.entities.map EntityNode.name).Nodup ∧
    (∀ r ∈ stateJW.relatedTo,
        entityExists stateJW r.fromName = true ∧
        entityExists stateJW r.toName = true) ∧
    ∃ out k1, searchNodes "" noFault stateJW 0 = (Except.ok out, stateJW, k1) ∧
      out.entities.map Entity.name = stateJW.entities.map EntityNode.name ∧
      out.relations = stateJW.relatedTo :=
  ⟨by decide, by decide,
   c10_searchNodes_empty_query stateJW 0 (by decide) (by decide)⟩

end KGMem
